import Mathlib

/-!
Verification of the CMS 2015 HI ppref dataset-record aggregation pipeline
(`create_dataset_records.py`): a shallow embedding of its data model and
operations, with theorems settling the specified properties.

Conventions of the embedding:
* Python strings are Lean `String`s (or `List Char` where character-level
  reasoning is needed); machine integers do not occur (all counters are
  small naturals).
* Python dictionaries are association lists with insert-overwrite-in-place
  semantics, preserving insertion order exactly as CPython dicts do.
* Fallible code (file opens, direct dict accesses, tuple unpacking) is
  embedded in `Except PyError`.
* The filesystem and all external inputs are an explicit `Inputs` record;
  ambient process state that the program never consults (clock, RNG seed)
  is carried alongside in `Env` so that insensitivity to it can be stated.
-/

/-- Python exception classes that the script can raise. -/
inductive PyError
  | nameError (n : String)
  | keyError (k : String)
  | valueError
  | fileNotFoundError
  deriving DecidableEq, Repr

/-!
JSON-like values: scalars, sequences and mappings (a CPython dict is
an insertion-ordered association list with unique keys).  Sequences and
mappings are their own inductive types (rather than `List`) so that all
traversals below are structural recursions.
-/
mutual

inductive Json
  | null
  | bool (b : Bool)
  | num (n : Int)
  | str (s : String)
  | arr (elems : JsonList)
  | obj (fields : JsonFields)

inductive JsonList
  | nil
  | cons (hd : Json) (tl : JsonList)

inductive JsonFields
  | nil
  | cons (key : String) (val : Json) (tl : JsonFields)

end

/-- Build a `JsonList` from a Lean list. -/
def jsonList : List Json → JsonList
  | [] => .nil
  | x :: r => .cons x (jsonList r)

/-- Build a `JsonFields` from a Lean association list. -/
def jsonObj : List (String × Json) → JsonFields
  | [] => .nil
  | (k, v) :: r => .cons k v (jsonObj r)

def JsonList.isNil : JsonList → Bool
  | .nil => true
  | .cons _ _ => false

def JsonFields.isNil : JsonFields → Bool
  | .nil => true
  | .cons _ _ _ => false

/-- Python dict membership/lookup (`akey in data.keys()` / `data[akey]`):
first matching key (keys of a dict are unique). -/
def jsonLookup : JsonFields → String → Option Json
  | .nil, _ => none
  | .cons k v rest, akey => if k = akey then some v else jsonLookup rest akey

/-- Python truthiness (`if aval:`) of a JSON-like value. -/
def Json.truthy : Json → Bool
  | .null => false
  | .bool b => b
  | .num n => n != 0
  | .str s => s != ""
  | .arr l => !l.isNil
  | .obj l => !l.isNil

mutual

/-- `get_from_deep_json(data, akey)` (lines 57-78): traverse DATA and
return first value matching AKEY.  Python's `return None` is `Json.null`
(the absent-value sentinel is the same object as a found JSON null). -/
def get_from_deep_json : Json → String → Json
  | .obj fields, akey =>
    (match jsonLookup fields akey with
     | some v => v
     | none => searchFields fields akey)
  | .arr elems, akey => searchElems elems akey
  | _, _ => .null

/-- The `for val in data.values():` loop of the dict branch: a dict value
is searched recursively; the elements of a list value are each searched
recursively (`get_from_deep_json` performs exactly that elementwise
traversal on the list value itself); scalar values are skipped; a
recursive result is returned only if truthy (`if aval:`). -/
def searchFields : JsonFields → String → Json
  | .nil, _ => .null
  | .cons _ (.obj f) rest, akey =>
    let aval := get_from_deep_json (.obj f) akey
    if aval.truthy then aval else searchFields rest akey
  | .cons _ (.arr elems) rest, akey =>
    let aval := get_from_deep_json (.arr elems) akey
    if aval.truthy then aval else searchFields rest akey
  | .cons _ _ rest, akey => searchFields rest akey

/-- The `for elem in data:`/`for elem in val:` loops: each element is
searched recursively, and a truthy result is returned. -/
def searchElems : JsonList → String → Json
  | .nil, _ => .null
  | .cons elem rest, akey =>
    let aval := get_from_deep_json elem akey
    if aval.truthy then aval else searchElems rest akey

end

mutual

/-- All values attached to key AKEY anywhere in the structure, in
depth-first traversal order, a direct mapping hit listed before hits
inside the mapping's values (the spec's traversal order). -/
def valuesForKey : Json → String → List Json
  | .obj fields, akey => (jsonLookup fields akey).toList ++ valuesInFields fields akey
  | .arr elems, akey => valuesInElems elems akey
  | _, _ => []

def valuesInFields : JsonFields → String → List Json
  | .nil, _ => []
  | .cons _ v rest, akey => valuesForKey v akey ++ valuesInFields rest akey

def valuesInElems : JsonList → String → List Json
  | .nil, _ => []
  | .cons e rest, akey => valuesForKey e akey ++ valuesInElems rest akey

end

theorem Json.ne_null_of_truthy {a : Json} (h : a.truthy = true) : a ≠ Json.null := by
  intro he
  subst he
  simp [Json.truthy] at h

/-- Joint soundness statement for the pruned deep search, proved by strong
induction on the size of the traversed structure:
* a structure holding no value for the key yields the `None` sentinel;
* a non-`None` result is one of the values attached to the key. -/
theorem deepSearch_main : ∀ n : Nat,
    (∀ d : Json, sizeOf d ≤ n → ∀ k,
      (valuesForKey d k = [] → get_from_deep_json d k = Json.null) ∧
      (get_from_deep_json d k ≠ Json.null → get_from_deep_json d k ∈ valuesForKey d k)) ∧
    (∀ fl : JsonFields, sizeOf fl ≤ n → ∀ k,
      (valuesInFields fl k = [] → searchFields fl k = Json.null) ∧
      (searchFields fl k ≠ Json.null → searchFields fl k ∈ valuesInFields fl k)) ∧
    (∀ el : JsonList, sizeOf el ≤ n → ∀ k,
      (valuesInElems el k = [] → searchElems el k = Json.null) ∧
      (searchElems el k ≠ Json.null → searchElems el k ∈ valuesInElems el k)) := by
  intro n
  induction n with
  | zero =>
    refine ⟨fun d hd => ?_, fun fl hfl => ?_, fun el hel => ?_⟩
    · cases d <;> simp at hd
    · cases fl <;> simp at hfl
    · cases el <;> simp at hel
  | succ n ih =>
    obtain ⟨ihd, ihf, ihe⟩ := ih
    refine ⟨fun d hd k => ?_, fun fl hfl k => ?_, fun el hel k => ?_⟩
    · cases d with
      | obj fields =>
        have hsz : sizeOf fields ≤ n := by simp at hd; omega
        cases hL : jsonLookup fields k with
        | some v =>
          refine ⟨fun hv => ?_, fun _ => ?_⟩
          · simp [valuesForKey, hL] at hv
          · simp [get_from_deep_json, valuesForKey, hL]
        | none =>
          have hrec := ihf fields hsz k
          refine ⟨fun hv => ?_, fun hne => ?_⟩
          · simp [valuesForKey, hL] at hv
            simpa [get_from_deep_json, hL] using hrec.1 hv
          · simp [get_from_deep_json, hL] at hne ⊢
            simpa [valuesForKey, hL] using hrec.2 hne
      | arr elems =>
        have hsz : sizeOf elems ≤ n := by simp at hd; omega
        have hrec := ihe elems hsz k
        refine ⟨fun hv => ?_, fun hne => ?_⟩
        · simp [valuesForKey] at hv
          simpa [get_from_deep_json] using hrec.1 hv
        · simp [get_from_deep_json] at hne ⊢
          simpa [valuesForKey] using hrec.2 hne
      | null => simp [get_from_deep_json, valuesForKey]
      | bool b => simp [get_from_deep_json, valuesForKey]
      | num m => simp [get_from_deep_json, valuesForKey]
      | str s => simp [get_from_deep_json, valuesForKey]
    · cases fl with
      | nil => simp [searchFields, valuesInFields]
      | cons key val rest =>
        have hszr : sizeOf rest ≤ n := by simp at hfl; omega
        have hszv : sizeOf val ≤ n := by simp at hfl; omega
        have hrest := ihf rest hszr k
        cases val with
        | obj f =>
          have hval := ihd (Json.obj f) hszv k
          by_cases ht : (get_from_deep_json (Json.obj f) k).truthy
          · refine ⟨fun hv => ?_, fun _ => ?_⟩
            · simp [valuesInFields] at hv
              have := hval.1 hv.1
              rw [this] at ht
              simp [Json.truthy] at ht
            · have hmem := hval.2 (Json.ne_null_of_truthy ht)
              simp [searchFields, ht, valuesInFields]
              exact .inl hmem
          · refine ⟨fun hv => ?_, fun hne => ?_⟩
            · simp [valuesInFields] at hv
              simpa [searchFields, ht] using hrest.1 hv.2
            · simp [searchFields, ht] at hne ⊢
              simp [valuesInFields]
              exact .inr (hrest.2 hne)
        | arr el =>
          have hval := ihd (Json.arr el) hszv k
          by_cases ht : (get_from_deep_json (Json.arr el) k).truthy
          · refine ⟨fun hv => ?_, fun _ => ?_⟩
            · simp [valuesInFields] at hv
              have := hval.1 hv.1
              rw [this] at ht
              simp [Json.truthy] at ht
            · have hmem := hval.2 (Json.ne_null_of_truthy ht)
              simp [searchFields, ht, valuesInFields]
              exact .inl hmem
          · refine ⟨fun hv => ?_, fun hne => ?_⟩
            · simp [valuesInFields] at hv
              simpa [searchFields, ht] using hrest.1 hv.2
            · simp [searchFields, ht] at hne ⊢
              simp [valuesInFields]
              exact .inr (hrest.2 hne)
        | null => simpa [searchFields, valuesInFields, valuesForKey] using hrest
        | bool b => simpa [searchFields, valuesInFields, valuesForKey] using hrest
        | num m => simpa [searchFields, valuesInFields, valuesForKey] using hrest
        | str s => simpa [searchFields, valuesInFields, valuesForKey] using hrest
    · cases el with
      | nil => simp [searchElems, valuesInElems]
      | cons e rest =>
        have hsze : sizeOf e ≤ n := by simp at hel; omega
        have hszr : sizeOf rest ≤ n := by simp at hel; omega
        have he := ihd e hsze k
        have hrest := ihe rest hszr k
        by_cases ht : (get_from_deep_json e k).truthy
        · refine ⟨fun hv => ?_, fun _ => ?_⟩
          · simp [valuesInElems] at hv
            have := he.1 hv.1
            rw [this] at ht
            simp [Json.truthy] at ht
          · have hmem := he.2 (Json.ne_null_of_truthy ht)
            simp [searchElems, ht, valuesInElems]
            exact .inl hmem
        · refine ⟨fun hv => ?_, fun hne => ?_⟩
          · simp [valuesInElems] at hv
            simpa [searchElems, ht] using hrest.1 hv.2
          · simp [searchElems, ht] at hne ⊢
            simp [valuesInElems]
            exact .inr (hrest.2 hne)

/-- Instantiated form of `deepSearch_main` for one JSON value. -/
theorem deepSearchOk (d : Json) (k : String) :
    (valuesForKey d k = [] → get_from_deep_json d k = Json.null) ∧
    (get_from_deep_json d k ≠ Json.null → get_from_deep_json d k ∈ valuesForKey d k) :=
  (deepSearch_main (sizeOf d)).1 d le_rfl k

/-- A structure in which the key "k" occurs (at depth 1) with the falsy
value `0` as its only value. -/
def c1Data : Json := Json.obj (jsonObj [("a", Json.obj (jsonObj [("k", Json.num 0)]))])

/-- C1 counterexample: in `c1Data` the key "k" occurs, and the first (and
only) value found for it under depth-first traversal is `0`; yet
`get_from_deep_json` returns the absent-value sentinel `None`, because the
`if aval:` truthiness test discards the falsy nested hit.  This refutes
the claim that the first value found under depth-first traversal is
returned whenever the key occurs. -/
theorem c1_get_from_deep_json_counterexample :
    valuesForKey c1Data "k" = [Json.num 0] ∧
    get_from_deep_json c1Data "k" = Json.null ∧
    Json.null ≠ Json.num 0 :=
  ⟨rfl, rfl, fun h => Json.noConfusion h⟩

/-- C1 (amended): `get_from_deep_json` is total (never raises); if the key
occurs nowhere it returns the absent-value sentinel `None`; a non-`None`
result is always one of the values attached to the key (the first truthy
one its pruned depth-first search reaches); and a top-level mapping hit is
returned as-is, truthy or not.  (Falsy values of the key reached through
recursion are skipped, so the first value under depth-first traversal is
not always the result.) -/
theorem c1_get_from_deep_json_amended (d : Json) (k : String) :
    (valuesForKey d k = [] → get_from_deep_json d k = Json.null) ∧
    (get_from_deep_json d k ≠ Json.null → get_from_deep_json d k ∈ valuesForKey d k) ∧
    (∀ fields v, d = Json.obj fields → jsonLookup fields k = some v →
      get_from_deep_json d k = v) := by
  refine ⟨(deepSearchOk d k).1, (deepSearchOk d k).2, ?_⟩
  intro fields v hd hL
  subst hd
  simp [get_from_deep_json, hL]

/-- A structure with a truthy nested value for "k". -/
def c1WData : Json := Json.obj (jsonObj [("a", Json.obj (jsonObj [("k", Json.num 7)]))])

/-- A structure in which "k" occurs nowhere. -/
def c1NData : Json := Json.obj (jsonObj [("a", Json.num 3)])

/-- A structure with a top-level falsy hit for "k". -/
def c1TData : Json := Json.obj (jsonObj [("k", Json.num 0)])

/-- Witness for C1 (amended), discharging each hypothesis at a concrete
input: a truthy nested hit is returned and is a value of the key; a
structure without the key yields the sentinel; a top-level falsy hit is
returned as-is. -/
theorem c1_get_from_deep_json_amended_witness :
    (get_from_deep_json c1WData "k" = Json.num 7 ∧
      get_from_deep_json c1WData "k" ∈ valuesForKey c1WData "k") ∧
    get_from_deep_json c1NData "k" = Json.null ∧
    get_from_deep_json c1TData "k" = Json.num 0 := by
  refine ⟨⟨rfl, ?_⟩, ?_, ?_⟩
  · exact (c1_get_from_deep_json_amended c1WData "k").2.1
      (by rw [show get_from_deep_json c1WData "k" = Json.num 7 from rfl]
          exact fun h => Json.noConfusion h)
  · exact (c1_get_from_deep_json_amended c1NData "k").1 rfl
  · exact (c1_get_from_deep_json_amended c1TData "k").2.2 (jsonObj [("k", Json.num 0)])
      (Json.num 0) rfl rfl

/-- The sub-pattern `(.*)$` of the dataset-identifier regex
(line 283): a greedy dot-star (`.` does not match a newline) followed by
the end anchor.  Python's `$` (without `re.MULTILINE`) matches at the end
of the string or just before a newline at the end of the string. -/
def reTail (v : List Char) : Option (List Char) :=
  if v.all (fun c => c != '\n') then some v
  else if v.getLast? == some '\n' && v.dropLast.all (fun c => c != '\n') then
    some v.dropLast
  else none

/-- The sub-pattern `(.*?)/(.*)$`: a lazy dot-star, the literal `/`, then
`reTail`.  Laziness: at each position the literal continuation is tried
first; only if it fails is one (non-newline) character consumed. -/
def reG3 : List Char → Option (List Char × List Char)
  | [] => none
  | c :: rest =>
    match (if c = '/' then reTail rest else none) with
    | some g4 => some ([], g4)
    | none =>
      if c = '\n' then none
      else (reG3 rest).map (fun p => (c :: p.1, p.2))

/-- The sub-pattern `(.*?)-(.*?)/(.*)$`: a lazy dot-star, the literal
`-`, then `reG3`. -/
def reG2 : List Char → Option (List Char × List Char × List Char)
  | [] => none
  | c :: rest =>
    match (if c = '-' then reG3 rest else none) with
    | some p => some ([], p.1, p.2)
    | none =>
      if c = '\n' then none
      else (reG2 rest).map (fun p => (c :: p.1, p.2))

/-- The sub-pattern `(.*)\/(.*?)-(.*?)/(.*)$`: a greedy dot-star, the
literal `/`, then `reG2`.  Greediness: at each position consuming one more
(non-newline) character is tried first, with full backtracking; only if
the whole rest fails is the literal `/` matched here. -/
def reG1 : List Char → Option (List Char × List Char × List Char × List Char)
  | [] => none
  | c :: rest =>
    match (if c = '\n' then none else (reG1 rest).map (fun q => (c :: q.1, q.2))) with
    | some q => some q
    | none =>
      if c = '/' then (reG2 rest).map (fun t => ([], t.1, t.2.1, t.2.2))
      else none

/-- `re.match(r"^/(.*)\/(.*?)-(.*?)/(.*)$", s)` of `create_record`
(line 283), returning the four captured groups on success. -/
def re_match_dataset (s : List Char) : Option (List Char × List Char × List Char × List Char) :=
  match s with
  | [] => none
  | c :: rest => if c = '/' then reG1 rest else none

theorem reTail_sound {v g : List Char} (h : reTail v = some g) :
    v = g ∨ v = g ++ ['\n'] := by
  unfold reTail at h
  split at h
  · exact .inl (Option.some.inj h)
  · split at h
    · rename_i hb
      have hg : g = v.dropLast := (Option.some.inj h).symm
      subst hg
      right
      simp only [Bool.and_eq_true, beq_iff_eq] at hb
      cases v using List.reverseRecOn with
      | nil => simp at hb
      | append_singleton xs x =>
        have hx : x = '\n' := by simpa using hb.1
        simp [hx]
    · exact Option.noConfusion h

theorem reG3_sound : ∀ {u g3 g4 : List Char}, reG3 u = some (g3, g4) →
    u = g3 ++ '/' :: g4 ∨ u = g3 ++ '/' :: (g4 ++ ['\n']) := by
  intro u
  induction u with
  | nil => intro g3 g4 h; simp [reG3] at h
  | cons c rest ih =>
    intro g3 g4 h
    unfold reG3 at h
    split at h
    · rename_i t hm
      have hc : c = '/' ∧ reTail rest = some t := by
        by_cases hc' : c = '/'
        · exact ⟨hc', by simpa [hc'] using hm⟩
        · simp [hc'] at hm
      obtain ⟨he, hg⟩ := Prod.mk.injEq .. ▸ Option.some.inj h
      subst he hg
      rcases reTail_sound hc.2 with h' | h' <;> simp [hc.1, h']
    · split at h
      · exact Option.noConfusion h
      · rename_i hnl
        cases hr : reG3 rest with
        | none => rw [hr] at h; simp at h
        | some p =>
          rw [hr] at h
          simp only [Option.map_some'] at h
          obtain ⟨hg3, hg4⟩ := Prod.mk.injEq .. ▸ Option.some.inj h
          subst hg3 hg4
          rcases ih hr with h' | h' <;> simp [h']

theorem reG2_sound : ∀ {t g2 g3 g4 : List Char}, reG2 t = some (g2, g3, g4) →
    t = g2 ++ '-' :: (g3 ++ '/' :: g4) ∨
    t = g2 ++ '-' :: (g3 ++ '/' :: (g4 ++ ['\n'])) := by
  intro t
  induction t with
  | nil => intro g2 g3 g4 h; simp [reG2] at h
  | cons c rest ih =>
    intro g2 g3 g4 h
    unfold reG2 at h
    split at h
    · rename_i p hm
      have hc : c = '-' ∧ reG3 rest = some p := by
        by_cases hc' : c = '-'
        · exact ⟨hc', by simpa [hc'] using hm⟩
        · simp [hc'] at hm
      obtain ⟨he, hrest⟩ := Prod.mk.injEq .. ▸ Option.some.inj h
      subst he
      obtain ⟨he3, he4⟩ := Prod.mk.injEq .. ▸ hrest
      subst he3 he4
      rcases reG3_sound hc.2 with h' | h' <;> simp [hc.1, h']
    · split at h
      · exact Option.noConfusion h
      · cases hr : reG2 rest with
        | none => rw [hr] at h; simp at h
        | some p =>
          rw [hr] at h
          simp only [Option.map_some'] at h
          obtain ⟨hg2, hrest⟩ := Prod.mk.injEq .. ▸ Option.some.inj h
          subst hg2
          obtain ⟨he3, he4⟩ := Prod.mk.injEq .. ▸ hrest
          subst he3 he4
          rcases ih hr with h' | h' <;> simp [h']

theorem reG1_sound : ∀ {r g1 g2 g3 g4 : List Char}, reG1 r = some (g1, g2, g3, g4) →
    r = g1 ++ '/' :: (g2 ++ '-' :: (g3 ++ '/' :: g4)) ∨
    r = g1 ++ '/' :: (g2 ++ '-' :: (g3 ++ '/' :: (g4 ++ ['\n']))) := by
  intro r
  induction r with
  | nil => intro g1 g2 g3 g4 h; simp [reG1] at h
  | cons c rest ih =>
    intro g1 g2 g3 g4 h
    unfold reG1 at h
    split at h
    · rename_i q hm
      have hq : c ≠ '\n' ∧ (reG1 rest).map (fun q => (c :: q.1, q.2)) = some q := by
        by_cases hc' : c = '\n'
        · simp [hc'] at hm
        · exact ⟨hc', by simpa [hc'] using hm⟩
      cases hr : reG1 rest with
      | none => rw [hr] at hq; simp at hq
      | some p =>
        have := hq.2
        rw [hr] at this
        simp only [Option.map_some'] at this
        rw [← this] at h
        obtain ⟨hg1, hrest⟩ := Prod.mk.injEq .. ▸ Option.some.inj h
        subst hg1
        obtain ⟨p1, p2, p3, p4⟩ := p
        obtain ⟨he2, hrest2⟩ := Prod.mk.injEq .. ▸ hrest
        obtain ⟨he3, he4⟩ := Prod.mk.injEq .. ▸ hrest2
        subst he2 he3 he4
        rcases ih hr with h' | h' <;> simp [h']
    · rename_i hm
      split at h
      · rename_i hc
        cases hr : reG2 rest with
        | none => rw [hr] at h; simp at h
        | some p =>
          rw [hr] at h
          simp only [Option.map_some'] at h
          obtain ⟨hg1, hrest⟩ := Prod.mk.injEq .. ▸ Option.some.inj h
          subst hg1
          obtain ⟨he2, hrest2⟩ := Prod.mk.injEq .. ▸ hrest
          obtain ⟨he3, he4⟩ := Prod.mk.injEq .. ▸ hrest2
          subst he2 he3 he4
          rcases reG2_sound hr with h' | h' <;> simp [hc, h']
      · exact Option.noConfusion h

/-- Any successful match of the four-group pattern tiles the matched text:
the input is the separators interleaved with the four groups, except that
a single trailing newline may be left outside the match (Python's `$`). -/
theorem re_match_dataset_sound {s g1 g2 g3 g4 : List Char}
    (h : re_match_dataset s = some (g1, g2, g3, g4)) :
    s = '/' :: (g1 ++ '/' :: (g2 ++ '-' :: (g3 ++ '/' :: g4))) ∨
    s = '/' :: (g1 ++ '/' :: (g2 ++ '-' :: (g3 ++ '/' :: g4))) ++ ['\n'] := by
  unfold re_match_dataset at h
  split at h
  · exact Option.noConfusion h
  · rename_i c rest
    split at h
    · rename_i hc
      subst hc
      rcases reG1_sound h with h' | h' <;> simp [h']
    · exact Option.noConfusion h

/-- An identifier accepted by the four-part pattern that ends in a
newline: Python's `$` matches just before the trailing newline. -/
def c2Bad : List Char := ['/', 'A', '/', 'B', '-', 'C', '/', 'D', '\n']

/-- C2 counterexample: `"/A/B-C/D\n"` is accepted by the four-part
pattern (groups `A`, `B`, `C`, `D`), but re-concatenating the four parsed
components with the original separators yields `"/A/B-C/D"`, which is not
the input: the trailing newline admitted by Python's `$` anchor is lost. -/
theorem c2_roundtrip_counterexample :
    re_match_dataset c2Bad = some (['A'], ['B'], ['C'], ['D']) ∧
    '/' :: (['A'] ++ '/' :: (['B'] ++ '-' :: (['C'] ++ '/' :: ['D']))) ≠ c2Bad :=
  ⟨rfl, by decide⟩

/-- C2 (amended): for every dataset identifier accepted by the four-part
pattern, re-concatenating the four parsed components with the original
separators reproduces the input exactly, unless the input ends with a
newline, in which case it reproduces the input with that single trailing
newline removed. -/
theorem c2_roundtrip_amended (s g1 g2 g3 g4 : List Char)
    (h : re_match_dataset s = some (g1, g2, g3, g4)) :
    (s = '/' :: (g1 ++ '/' :: (g2 ++ '-' :: (g3 ++ '/' :: g4))) ∨
      s = '/' :: (g1 ++ '/' :: (g2 ++ '-' :: (g3 ++ '/' :: g4))) ++ ['\n']) ∧
    (s.getLast? ≠ some '\n' →
      s = '/' :: (g1 ++ '/' :: (g2 ++ '-' :: (g3 ++ '/' :: g4)))) := by
  refine ⟨re_match_dataset_sound h, fun hnl => ?_⟩
  rcases re_match_dataset_sound h with h' | h'
  · exact h'
  · rw [h'] at hnl
    exact absurd (List.getLast?_concat _) hnl

/-- Witness for C2 (amended) at `"/A/B-C/D"`: the match succeeds, the
input does not end in a newline, and the round-trip is exact. -/
theorem c2_roundtrip_amended_witness :
    ['/', 'A', '/', 'B', '-', 'C', '/', 'D'] =
      '/' :: (['A'] ++ '/' :: (['B'] ++ '-' :: (['C'] ++ '/' :: ['D']))) :=
  (c2_roundtrip_amended ['/', 'A', '/', 'B', '-', 'C', '/', 'D']
    ['A'] ['B'] ['C'] ['D'] rfl).2 (by decide)

/-- Python `str.strip()` whitespace (the ASCII portion, which is all that
occurs in the input files). -/
def pyIsSpace (c : Char) : Bool :=
  c = ' ' || c = '\t' || c = '\n' || c = '\r' || c = '\x0b' || c = '\x0c'

/-- Python `line.strip()`. -/
def pyStrip (s : String) : String :=
  ⟨((s.data.dropWhile pyIsSpace).reverse.dropWhile pyIsSpace).reverse⟩

/-- Python `s.split(sep)` for a one-character separator: split at every
occurrence, keeping empty fields. -/
def pySplitChar (sep : Char) : List Char → List (List Char)
  | [] => [[]]
  | c :: rest =>
    let r := pySplitChar sep rest
    if c = sep then [] :: r
    else
      match r with
      | h :: t => (c :: h) :: t
      | [] => [[c]]

def pySplitCharStr (s : String) (sep : Char) : List String :=
  (pySplitChar sep s.data).map (fun l => ⟨l⟩)

/-- Python `s.split()` (no argument): split on runs of whitespace,
dropping empty fields.  `cur` holds the current word reversed. -/
def pySplitWsAux : List Char → List Char → List String
  | cur, [] => if cur.isEmpty then [] else [⟨cur.reverse⟩]
  | cur, c :: rest =>
    if pyIsSpace c then
      if cur.isEmpty then pySplitWsAux [] rest
      else (⟨cur.reverse⟩ : String) :: pySplitWsAux [] rest
    else pySplitWsAux (c :: cur) rest

def pySplitWs (s : String) : List String := pySplitWsAux [] s.data

/-- Scanner for Python `s.replace(old, new)` with non-empty `old`:
left-to-right, non-overlapping; after a hit the rest of the matched text
is skipped via the countdown in the first argument. -/
def pyReplaceAux (pat repl : List Char) : Nat → List Char → List Char
  | _, [] => []
  | skip + 1, _ :: rest => pyReplaceAux pat repl skip rest
  | 0, c :: rest =>
    if pat.isPrefixOf (c :: rest) then repl ++ pyReplaceAux pat repl (pat.length - 1) rest
    else c :: pyReplaceAux pat repl 0 rest

/-- Python `s.replace(old, new)`; for empty `old` the replacement is
interleaved around every character, as CPython does. -/
def pyReplace (s pat repl : List Char) : List Char :=
  if pat.isEmpty then repl ++ s.foldr (fun c acc => c :: (repl ++ acc)) []
  else pyReplaceAux pat repl 0 s

def pyReplaceStr (s pat repl : String) : String := ⟨pyReplace s.data pat.data repl.data⟩

/-- CPython dict assignment `d[k] = v`: overwrite in place if the key
exists (keeping its position), else append. -/
def dictInsert {α : Type} : List (String × α) → String → α → List (String × α)
  | [], k, v => [(k, v)]
  | (k', v') :: rest, k, v =>
    if k' = k then (k, v) :: rest else (k', v') :: dictInsert rest k v

/-- CPython dict lookup `d[k]` / `d.get(k)`. -/
def dictLookup {α : Type} : List (String × α) → String → Option α
  | [], _ => none
  | (k', v) :: rest, k => if k' = k then some v else dictLookup rest k

/-- CPython `k in d.keys()`. -/
def dictContains {α : Type} (d : List (String × α)) (k : String) : Bool :=
  (dictLookup d k).isSome

/-- Stable ascending insertion for `pySort`. -/
def insertStr (x : String) : List String → List String
  | [] => [x]
  | y :: rest => if y ≤ x then y :: insertStr x rest else x :: y :: rest

/-- Python `list.sort()` on strings: stable, ascending by code points. -/
def pySort (l : List String) : List String := l.foldl (fun acc x => insertStr x acc) []

/-- `zlib.adler32(data, 1)`: running pair (a, b) modulo 65521 starting
from (1, 0), combined as `b * 65536 + a` (always below 2^32, so the
`& 0xFFFFFFFF` of the source is a no-op). -/
def adler32 (content : List Nat) : Nat :=
  let p := content.foldl
    (fun (ab : Nat × Nat) b => ((ab.1 + b) % 65521, (ab.2 + (ab.1 + b) % 65521) % 65521))
    (1, 0)
  p.2 * 65536 + p.1

/-- `hex(n)[2:].zfill(8)`: lowercase hexadecimal digits, left-padded with
zeros to 8 characters. -/
def zfill8 (s : List Char) : List Char := List.replicate (8 - s.length) '0' ++ s

/-- `get_file_checksum(afile)` (lines 117-119): the ADLER32 checksum of a
file's content, as 8 lowercase hex characters.  The file's bytes stand in
for the open/read. -/
def get_file_checksum (content : List Nat) : String :=
  ⟨zfill8 (Nat.toDigits 16 (adler32 content))⟩

/-- `get_file_size(afile)` (lines 112-114): `os.path.getsize`. -/
def get_file_size (content : List Nat) : Nat := content.length

/-- Python `s.endswith(suf)`. -/
def strEndsWith (s suf : String) : Bool := suf.data.isSuffixOf s.data

/-- Substring scan: does `sub` occur contiguously in `s`? -/
def listContainsSub : List Char → List Char → Bool
  | sub, [] => sub.isEmpty
  | sub, c :: rest => sub.isPrefixOf (c :: rest) || listContainsSub sub rest

/-- Python `sub in s` (substring containment). -/
def strContainsSub (s sub : String) : Bool := listContainsSub sub.data s.data

/-- Python `s.startswith(p)`. -/
def strStartsWith (s p : String) : Bool := p.data.isPrefixOf s.data

/-- Python `s[a:b]` for `0 ≤ a ≤ b`. -/
def pySlice (s : String) (a b : Nat) : String := ⟨(s.data.drop a).take (b - a)⟩

def recid_freerange_start : Nat := 24600

def recid_validated_runs_full_validation : Nat := 14212

def recid_validated_runs_muons_only : Nat := 14213

def recid_hlt_trigger_configuration : Nat := 23900

def global_tag : String := "75X_dataRun2_v13"

def cmssw_release : String := "CMSSW_7_5_8_patch3"

def collision_energy : String := "5.02TeV"

def collision_type : String := "pp"

def year_published : String := "2023"

/-- The external inputs of one run: contents of each input file (`none`
models an absent file), the parsed container-image JSON, the DAS JSON
store (filepath to parsed document), the `ls` listing of the EOS
file-index directory with each file's bytes, and the target dataset list.

`linkInfo`, `xrootdUriBase`, `indexFileBase` and `datasetLocation` are
modelled from the spec: `LINK_INFO` is populated by exec-ing
`outputs/reco_config_files_link_info.py` and the other three are imported
from `create_eos_file_indexes`, neither of which is under `src/`; the
spec says only that the location and index-file-base are pure string
rules over the dataset fields, so they are arbitrary string functions
here. -/
structure Inputs where
  hltFile : Option (List String)
  doiFile : Option (List String)
  allrunsFile : Option (List String)
  containerImagesFile : Option (List (String × Json))
  recoCmsswFile : Option (List String)
  recoGlobaltagFile : Option (List String)
  selectionDescFile : Option (List String)
  linkInfo : List (String × String)
  dasStore : String → Option Json
  eosDir : List (String × List Nat)
  datasetListFile : Option (List String)
  xrootdUriBase : String
  indexFileBase : String → String
  datasetLocation : String → String

/-- The process environment: the inputs plus ambient state (wall clock,
RNG seed) that the script never consults — carried only so that
insensitivity to it is expressible. -/
structure Env where
  inputs : Inputs
  systemTime : Nat
  randomSeed : Nat

/-- The populated module-level caches plus the filesystem pieces that the
record builder touches. -/
structure Ctx where
  fwyzard : List (String × List String)
  selection_descriptions : List (String × String)
  link_info : List (String × String)
  doi_info : List (String × String)
  runnumber_cache : List (String × List String)
  containerimages_cache : List (String × Json)
  recocmssw_cache : List (String × String)
  recoglobaltag_cache : List (String × String)
  dasStore : String → Option Json
  eosDir : List (String × List Nat)
  xrootdUriBase : String
  indexFileBase : String → String
  datasetLocation : String → String

/-- `populate_fwyzard` (lines 122-133): optional file (guarded by
`os.path.exists`); each stripped line is split on "," into exactly two
fields (`ValueError` otherwise); triggers accumulate per dataset. -/
def populate_fwyzard : Option (List String) → Except PyError (List (String × List String))
  | none => .ok []
  | some lines =>
    lines.foldlM (fun table line =>
      match pySplitCharStr (pyStrip line) ',' with
      | [dataset, trigger] =>
        .ok (match dictLookup table dataset with
             | some ts => dictInsert table dataset (ts ++ [trigger])
             | none => dictInsert table dataset [trigger])
      | _ => .error .valueError) []

/-- `populate_doiinfo` (lines 136-140): the file is opened
unconditionally (`FileNotFoundError` when absent); each line is split on
whitespace into exactly two fields. -/
def populate_doiinfo : Option (List String) → Except PyError (List (String × String))
  | none => .error .fileNotFoundError
  | some lines =>
    lines.foldlM (fun table line =>
      match pySplitWs line with
      | [dataset, doi] => .ok (dictInsert table dataset doi)
      | _ => .error .valueError) []

/-- The loop body of `populate_runnumber_cache` (lines 143-161): a header
line (stripped, starting with "/") commits the pending block — unless the
dataset is already present (a diagnostic is printed and nothing is
committed) or no value lines were collected — and starts a new block; any
other line is collected (stripped) as a value.  The pending block at end
of file is dropped. -/
def populate_runnumber_cache_aux :
    List (String × List String) → String → List String → List String →
    List (String × List String)
  | cache, _, _, [] => cache
  | cache, dataset, values, line :: rest =>
    let l := pyStrip line
    if strStartsWith l "/" then
      let cache' :=
        if dictContains cache dataset then cache
        else if values.isEmpty then cache
        else dictInsert cache dataset (pySort values)
      populate_runnumber_cache_aux cache' l [] rest
    else populate_runnumber_cache_aux cache dataset (values ++ [l]) rest

/-- `populate_runnumber_cache` (lines 143-161). -/
def populate_runnumber_cache : Option (List String) →
    Except PyError (List (String × List String))
  | none => .error .fileNotFoundError
  | some lines => .ok (populate_runnumber_cache_aux [] "" [] lines)

/-- `populate_containerimages_cache` (lines 164-169): copy each key of
the parsed JSON document into the cache. -/
def populate_containerimages_cache : Option (List (String × Json)) →
    Except PyError (List (String × Json))
  | none => .error .fileNotFoundError
  | some content => .ok (content.foldl (fun acc kv => dictInsert acc kv.1 kv.2) [])

/-- `populate_recocmssw_cache` (lines 172-178): split each stripped line
on a single space into exactly two fields; strip the ".py" from the
config name. -/
def populate_recocmssw_cache : Option (List String) →
    Except PyError (List (String × String))
  | none => .error .fileNotFoundError
  | some lines =>
    lines.foldlM (fun table line =>
      match pySplitCharStr (pyStrip line) ' ' with
      | [reco, cmssw] => .ok (dictInsert table (pyReplaceStr reco ".py" "") cmssw)
      | _ => .error .valueError) []

/-- `populate_recoglobaltag_cache` (lines 181-187). -/
def populate_recoglobaltag_cache : Option (List String) →
    Except PyError (List (String × String))
  | none => .error .fileNotFoundError
  | some lines =>
    lines.foldlM (fun table line =>
      match pySplitCharStr (pyStrip line) ' ' with
      | [reco, gt] => .ok (dictInsert table (pyReplaceStr reco ".py" "") gt)
      | _ => .error .valueError) []

/-- `populate_selection_descriptions` (lines 190-199): optional file;
`csv.reader` with delimiter ":" is modelled as splitting each row on ":"
into exactly two fields (the source data contains no quoting). -/
def populate_selection_descriptions : Option (List String) →
    Except PyError (List (String × String))
  | none => .ok []
  | some lines =>
    lines.foldlM (fun table line =>
      match pySplitCharStr line ':' with
      | [dataset, description] => .ok (dictInsert table dataset description)
      | _ => .error .valueError) []

/-- The DAS store path `"./inputs/das-json-store/" + dataset.replace("/", "@") + ".json"`. -/
def das_store_path (dataset : String) : String :=
  "./inputs/das-json-store/" ++ pyReplaceStr dataset "/" "@" ++ ".json"

/-- `get_das_store_json` (lines 81-85): open the per-dataset JSON file
(`FileNotFoundError` when it does not exist) and parse it. -/
def get_das_store_json (ctx : Ctx) (dataset : String) : Except PyError Json :=
  match ctx.dasStore (das_store_path dataset) with
  | some doc => .ok doc
  | none => .error .fileNotFoundError

/-- `get_number_events` (lines 88-93). -/
def get_number_events (ctx : Ctx) (dataset : String) : Except PyError Json := do
  let doc ← get_das_store_json ctx dataset
  let number_events := get_from_deep_json doc "nevents"
  if number_events.truthy then return number_events
  return Json.num 0

/-- `get_number_files` (lines 96-101). -/
def get_number_files (ctx : Ctx) (dataset : String) : Except PyError Json := do
  let doc ← get_das_store_json ctx dataset
  let number_files := get_from_deep_json doc "nfiles"
  if number_files.truthy then return number_files
  return Json.num 0

/-- `get_size` (lines 104-109). -/
def get_size (ctx : Ctx) (dataset : String) : Except PyError Json := do
  let doc ← get_das_store_json ctx dataset
  let size := get_from_deep_json doc "size"
  if size.truthy then return size
  return Json.num 0

/-- `get_trigger_paths_for_dataset` (lines 245-247): `FWYZARD.get(dataset, [])`. -/
def get_trigger_paths_for_dataset (ctx : Ctx) (dataset : String) : List String :=
  (dictLookup ctx.fwyzard dataset).getD []

/-- `get_doi` (lines 273-275): direct dict access `DOI_INFO[dataset_full_name]`,
raising `KeyError` when absent. -/
def get_doi (ctx : Ctx) (dataset_full_name : String) : Except PyError String :=
  match dictLookup ctx.doi_info dataset_full_name with
  | some doi => .ok doi
  | none => .error (.keyError dataset_full_name)

/-- `get_dataset_index_files` (lines 250-270): list the EOS index
directory filtered by `grep <base>` (substring containment), keep files
ending in ".txt" or ".json", and return `(uri, size, checksum)` triples
in listing order. -/
def get_dataset_index_files (ctx : Ctx) (dataset_full_name : String) :
    List (String × Nat × String) :=
  let dataset_index_file_base := ctx.indexFileBase dataset_full_name
  (ctx.eosDir.filter (fun f => strContainsSub f.1 dataset_index_file_base)).filterMap
    (fun f =>
      let afile := pyStrip f.1
      if strEndsWith afile ".txt" || strEndsWith afile ".json" then
        some (ctx.xrootdUriBase ++ ctx.datasetLocation dataset_full_name ++
                "/file-indexes/" ++ afile,
              get_file_size f.2, get_file_checksum f.2)
      else none)

/-- The `for reco_link in LINK_INFO.keys():` loop of
`create_selection_information` (lines 213-229): links whose key does not
contain `"_<dataset>_"` are skipped; for a matching link the release and
global tag are direct cache accesses (`KeyError` when absent) and the
RECO paragraph is appended. -/
def selinfoRecoLoop (ctx : Ctx) (dataset : String) :
    List (String × String) → Except PyError String
  | [] => .ok ""
  | (reco_link, link_recid) :: rest =>
    if strContainsSub reco_link ("_" ++ dataset ++ "_") then
      match dictLookup ctx.recocmssw_cache reco_link with
      | none => .error (.keyError reco_link)
      | some release =>
        match dictLookup ctx.recoglobaltag_cache reco_link with
        | none => .error (.keyError reco_link)
        | some gt =>
          let generator_text := "Configuration file for " ++ "RECO" ++ " step " ++ reco_link
          let chunk :=
            "<p><strong>Data processing / RECO</strong>" ++
            "<br/>This primary AOD dataset was processed from the RAW dataset by the following step (the run number in the configuration file name indicates the first run it was applied to): " ++
            "<br/>Step: " ++ "RECO" ++
            "<br/>Release: " ++ release ++
            "<br/>Global tag: " ++ gt ++
            "\n        <br/><a href=\"/record/" ++ link_recid ++ "\">" ++ generator_text ++ "</a>" ++
            "\n        </p>"
          (selinfoRecoLoop ctx dataset rest).map (fun restOut => chunk ++ restOut)
    else selinfoRecoLoop ctx dataset rest

/-- `trigger_path[:-2]` when it ends in "_v" (lines 235-236). -/
def trigger_path_fix (trigger_path : String) : String :=
  if strEndsWith trigger_path "_v" then ⟨trigger_path.data.dropLast.dropLast⟩
  else trigger_path

/-- The trigger-path anchor loop of `create_selection_information`
(lines 234-240). -/
def trigger_paths_html (paths : List String) : String :=
  paths.foldl (fun out tp0 =>
    let tp := trigger_path_fix tp0
    out ++ "<br/><a href=\"/search?q=" ++ tp ++ "&type=Supplementaries&year=2015\">" ++
      tp ++ "</a>") ""

/-- `create_selection_information(dataset, dataset_full_name)`
(lines 202-242). -/
def create_selection_information (ctx : Ctx) (dataset dataset_full_name : String) :
    Except PyError String := do
  let description := (dictLookup ctx.selection_descriptions dataset_full_name).getD ""
  let out1 := if description != "" then "<p>" ++ description ++ "</p>" else ""
  let out2 := "<p><strong>Data taking / HLT</strong>" ++
    "<br/>The collision data were assigned to different RAW datasets using the following <a href=\"/record/" ++
    toString recid_hlt_trigger_configuration ++ "\">HLT configuration</a>.</p>"
  let reco ← selinfoRecoLoop ctx dataset ctx.link_info
  let out3 := "<p><strong>HLT trigger paths</strong>" ++
    "<br/>The possible <a href=\"/docs/cms-guide-trigger-system#hlt-trigger-path-definitions\">HLT trigger paths</a> in this dataset are:"
  let out4 := trigger_paths_html (get_trigger_paths_for_dataset ctx dataset)
  return out1 ++ out2 ++ reco ++ out3 ++ out4 ++ "</p>"

/-- One element of a record's `files` array (lines 348-361). -/
structure FileEntry where
  checksum : String
  description : String
  size : Nat
  type : String
  uri : String
  deriving DecidableEq, Repr

/-- One output record: the fields `create_record` assigns, flattened with
their JSON nesting reflected in the field names.  `run_numbers` and
`system_details_container_images` are optional because the source only
assigns them when the cache holds the key. -/
structure DatasetRecord where
  abstract_description : String
  abstract_links : List (String × String)
  accelerator : String
  collaboration_name : String
  collaboration_recid : String
  collections : List String
  collision_information_energy : String
  collision_information_type : String
  date_created : List String
  date_published : String
  date_reprocessed : String
  distribution_formats : List String
  distribution_number_events : Json
  distribution_number_files : Json
  distribution_size : Json
  doi : String
  experiment : String
  files : List FileEntry
  keywords : List String
  license_attribution : String
  methodology_description : String
  publisher : String
  recid : String
  run_numbers : Option (List String)
  run_period : List String
  system_details_global_tag : String
  system_details_release : String
  system_details_container_images : Option Json
  title : String
  title_additional : String
  type_primary : String
  type_secondary : List String
  usage_description : String
  usage_links : List (String × String)
  validation_description : String
  validation_links : List (String × String)

/-- The two-pass `for index_type in [".json", ".txt"]:` loop filtered to
one extension (lines 345-361): enumerate matching triples, numbering each
group independently from 1 and exposing the group's own length. -/
def rec_files_for_type (dataset_short dataset_format index_type : String)
    (rec_files : List (String × Nat × String)) : List FileEntry :=
  let index_files := rec_files.filter (fun f => strEndsWith f.1 index_type)
  index_files.enum.map (fun p =>
    { checksum := "adler32:" ++ p.2.2.2,
      description := dataset_short ++ " " ++ dataset_format ++ " file index (" ++
        toString (p.1 + 1) ++ " of " ++ toString index_files.length ++
        ") for access to data",
      size := p.2.2.1,
      type := "index" ++ index_type,
      uri := p.2.1 })

/-- The full `rec["files"]` construction (lines 343-361): all ".json"
entries, then all ".txt" entries. -/
def build_rec_files (dataset_short dataset_format : String)
    (rec_files : List (String × Nat × String)) : List FileEntry :=
  rec_files_for_type dataset_short dataset_format ".json" rec_files ++
  rec_files_for_type dataset_short dataset_format ".txt" rec_files

/-- `dataset_runperiod[3:7]` (line 292). -/
def runperiod_year (dataset_runperiod : String) : String :=
  pySlice dataset_runperiod 3 7

/-- `dataset_runperiod.replace(dataset_runperiod_year, "")` (line 293). -/
def runperiod_runx (dataset_runperiod : String) : String :=
  pyReplaceStr dataset_runperiod (runperiod_year dataset_runperiod) ""

/-- `create_record(recid, dataset_full_name)` (lines 278-439).

On a pattern mismatch the source executes
`print(f"[ERROR] Cannot parse dataset {dataset}.")` — but no name
`dataset` is bound anywhere in the module (the parameter is
`dataset_full_name`), so evaluating the f-string raises
`NameError("dataset")` before anything is printed and before the
`sys.exit()` on the next line is reached. -/
def create_record (ctx : Ctx) (recid : Nat) (dataset_full_name : String) :
    Except PyError DatasetRecord := do
  match re_match_dataset dataset_full_name.data with
  | none => .error (.nameError "dataset")
  | some (g1, g2, _g3, g4) =>
    let dataset_short : String := ⟨g1⟩
    let dataset_runperiod : String := ⟨g2⟩
    let dataset_format : String := ⟨g4⟩
    let dataset_runperiod_year := runperiod_year dataset_runperiod
    let dataset_runperiod_runx := runperiod_runx dataset_runperiod
    let number_events ← get_number_events ctx dataset_full_name
    let number_files ← get_number_files ctx dataset_full_name
    let size ← get_size ctx dataset_full_name
    let doi ← get_doi ctx dataset_full_name
    let rec_files := get_dataset_index_files ctx dataset_full_name
    let methodology ← create_selection_information ctx dataset_short dataset_full_name
    return {
      abstract_description := "<p>" ++ dataset_short ++
        " primary dataset in " ++ dataset_format ++ " format from " ++
        dataset_runperiod_runx ++ " of " ++ dataset_runperiod_year ++
        ". Run period from run number 261445 to 262328.<p>" ++
        "<p>These proton-proton data were taken at the same centre-of-mass energy and have a similar trigger menu to proton-Pb collision data from 2013.</p>" ++
        "<p>The list of validated runs, which must be applied to all analyses, either with the full validation or for an analysis requiring only muons, can be found in</p>",
      abstract_links := [
        ("Validated runs, full validation", toString recid_validated_runs_full_validation),
        ("Validated runs, muons only", toString recid_validated_runs_muons_only)],
      accelerator := "CERN-LHC",
      collaboration_name := "CMS collaboration",
      collaboration_recid := "451",
      collections := ["CMS-Primary-Datasets"],
      collision_information_energy := collision_energy,
      collision_information_type := collision_type,
      date_created := [dataset_runperiod_year],
      date_published := year_published,
      date_reprocessed := dataset_runperiod_year,
      distribution_formats := ["aod", "root"],
      distribution_number_events := number_events,
      distribution_number_files := number_files,
      distribution_size := size,
      doi := doi,
      experiment := "CMS",
      files := build_rec_files dataset_short dataset_format rec_files,
      keywords := ["heavy-ion physics"],
      license_attribution := "CC0",
      methodology_description := methodology,
      publisher := "CERN Open Data Portal",
      recid := toString recid,
      run_numbers := dictLookup ctx.runnumber_cache dataset_full_name,
      run_period := [dataset_runperiod],
      system_details_global_tag := global_tag,
      system_details_release := cmssw_release,
      system_details_container_images := dictLookup ctx.containerimages_cache cmssw_release,
      title := dataset_full_name,
      title_additional := dataset_short ++ " primary dataset in " ++ dataset_format ++
        " format from " ++ dataset_runperiod_runx ++ " of " ++ dataset_runperiod_year ++
        " (" ++ dataset_full_name ++ ")",
      type_primary := "Dataset",
      type_secondary := ["Collision"],
      usage_description := "You can access these data through the CMS Open Data container or the CMS Virtual Machine. See the instructions for setting up one of the two alternative environments and getting started in",
      usage_links := [
        ("Running CMS analysis code using Docker", "/docs/cms-guide-docker"),
        ("How to install the CMS Virtual Machine",
          "/docs/cms-virtual-machine-" ++ dataset_runperiod_year),
        ("Getting Started with CMS 2013 and 2015 Heavy-Ion Open Data",
          "/docs/cms-getting-started-hi-2013-2015")],
      validation_description := "During data taking all the runs recorded by CMS are certified as good for physics analysis if all subdetectors, trigger, lumi and physics objects (tracking, electron, muon, photon, jet and MET) show the expected performance. Certification is based first on the offline shifters evaluation and later on the feedback provided by detector and Physics Object Group experts. Based on the above information, which is stored in a specific database called Run Registry, the Data Quality Monitoring group verifies the consistency of the certification and prepares a json file of certified runs to be used for physics analysis. For each reprocessing of the raw data, the above mentioned steps are repeated. For more information see:",
      validation_links := [
        ("The Data Quality Monitoring Software for the CMS experiment at the LHC: past, present and future",
          "https://www.epj-conferences.org/articles/epjconf/pdf/2019/19/epjconf_chep2018_02003.pdf")] }

/-- The loop of `create_records` (lines 442-449), carrying the running
record id. -/
def create_records_aux (ctx : Ctx) : Nat → List String → Except PyError (List DatasetRecord)
  | _, [] => .ok []
  | recid, name :: rest => do
    let r ← create_record ctx recid name
    let rs ← create_records_aux ctx (recid + 1) rest
    return r :: rs

/-- `create_records(dataset_full_names)` (lines 442-449): one record per
identifier, ids assigned consecutively from `recid_freerange_start`. -/
def create_records (ctx : Ctx) (dataset_full_names : List String) :
    Except PyError (List DatasetRecord) :=
  create_records_aux ctx recid_freerange_start dataset_full_names

def JsonFields.toList : JsonFields → List (String × Json)
  | .nil => []
  | .cons k v t => (k, v) :: JsonFields.toList t

def JsonList.toList : JsonList → List Json
  | .nil => []
  | .cons x t => (x : Json) :: JsonList.toList t

/-- JSON string escaping as `json.dumps` with `ensure_ascii=False`
performs it: only the quote, backslash and control characters are
escaped; everything else is emitted literally. -/
def jsonEscapeChar (c : Char) : List Char :=
  if c = '"' then '\\' :: ['"']
  else if c = '\\' then '\\' :: ['\\']
  else if c = '\n' then '\\' :: ['n']
  else if c = '\r' then '\\' :: ['r']
  else if c = '\t' then '\\' :: ['t']
  else if c.toNat < 32 then
    '\\' :: 'u' :: '0' :: '0' :: Nat.digitChar (c.toNat / 16) :: [Nat.digitChar (c.toNat % 16)]
  else [c]

def pyJsonStr (s : String) : String :=
  ⟨'"' :: s.data.foldr (fun c acc => jsonEscapeChar c ++ acc) ['"']⟩

/-- `sort_keys=True`: stable ascending insertion sort by key. -/
def insertField (x : String × Json) : List (String × Json) → List (String × Json)
  | [] => [x]
  | y :: rest => if y.1 ≤ x.1 then y :: insertField x rest else x :: y :: rest

def sortFields (l : List (String × Json)) : List (String × Json) :=
  l.foldl (fun acc x => insertField x acc) []

def indentStr (n : Nat) : String := ⟨List.replicate n ' '⟩

def joinSep (sep : String) : List String → String
  | [] => ""
  | x :: rest => rest.foldl (fun acc y => acc ++ sep ++ y) x

/-- `json.dumps(..., indent=2, sort_keys=True, ensure_ascii=False,
separators=(",", ": "))`.  The first argument is recursion fuel: passing
any bound on the nesting depth (the structure's `sizeOf` is one) makes
the serializer total without affecting its value. -/
def dumpsJson : Nat → Nat → Json → String
  | 0, _, _ => ""
  | fuel + 1, ind, j =>
    match j with
    | .null => "null"
    | .bool b => if b then "true" else "false"
    | .num n => toString n
    | .str s => pyJsonStr s
    | .arr l =>
      match l.toList with
      | [] => "[]"
      | xs =>
        "[\n" ++
        joinSep ",\n" (xs.map (fun x => indentStr (ind + 2) ++ dumpsJson fuel (ind + 2) x)) ++
        "\n" ++ indentStr ind ++ "]"
    | .obj fl =>
      match sortFields fl.toList with
      | [] => "\x7b\x7d"
      | xs =>
        "\x7b\n" ++
        joinSep ",\n" (xs.map (fun kv =>
          indentStr (ind + 2) ++ pyJsonStr kv.1 ++ ": " ++ dumpsJson fuel (ind + 2) kv.2)) ++
        "\n" ++ indentStr ind ++ "\x7d"

mutual

/-- An executable bound on the nesting depth, used as serializer fuel. -/
def jsonFuel : Json → Nat
  | .arr l => jsonFuelList l + 1
  | .obj fl => jsonFuelFields fl + 1
  | _ => 1

def jsonFuelList : JsonList → Nat
  | .nil => 0
  | .cons x t => jsonFuel x + jsonFuelList t + 1

def jsonFuelFields : JsonFields → Nat
  | .nil => 0
  | .cons _ v t => jsonFuel v + jsonFuelFields t + 1

end

def pyJsonDumps (j : Json) : String := dumpsJson (jsonFuel j) 0 j

def strPairObj (k1 : String) (v1 : String) (k2 : String) (v2 : String) : Json :=
  Json.obj (jsonObj [(k1, Json.str v1), (k2, Json.str v2)])

def fileEntryToJson (f : FileEntry) : Json :=
  Json.obj (jsonObj [
    ("checksum", Json.str f.checksum),
    ("description", Json.str f.description),
    ("size", Json.num f.size),
    ("type", Json.str f.type),
    ("uri", Json.str f.uri)])

/-- The JSON document a `DatasetRecord` denotes (key order irrelevant:
the serializer sorts keys). -/
def recToJson (r : DatasetRecord) : Json :=
  Json.obj (jsonObj (
    [("abstract", Json.obj (jsonObj [
        ("description", Json.str r.abstract_description),
        ("links", Json.arr (jsonList (r.abstract_links.map
          (fun p => strPairObj "description" p.1 "recid" p.2))))])),
     ("accelerator", Json.str r.accelerator),
     ("collaboration", strPairObj "name" r.collaboration_name "recid" r.collaboration_recid),
     ("collections", Json.arr (jsonList (r.collections.map Json.str))),
     ("collision_information", strPairObj "energy" r.collision_information_energy
        "type" r.collision_information_type),
     ("date_created", Json.arr (jsonList (r.date_created.map Json.str))),
     ("date_published", Json.str r.date_published),
     ("date_reprocessed", Json.str r.date_reprocessed),
     ("distribution", Json.obj (jsonObj [
        ("formats", Json.arr (jsonList (r.distribution_formats.map Json.str))),
        ("number_events", r.distribution_number_events),
        ("number_files", r.distribution_number_files),
        ("size", r.distribution_size)])),
     ("doi", Json.str r.doi),
     ("experiment", Json.str r.experiment),
     ("files", Json.arr (jsonList (r.files.map fileEntryToJson))),
     ("keywords", Json.arr (jsonList (r.keywords.map Json.str))),
     ("license", Json.obj (jsonObj [("attribution", Json.str r.license_attribution)])),
     ("methodology", Json.obj (jsonObj [("description", Json.str r.methodology_description)])),
     ("publisher", Json.str r.publisher),
     ("recid", Json.str r.recid)] ++
    (match r.run_numbers with
     | some rs => [("run_numbers", Json.arr (jsonList (rs.map Json.str)))]
     | none => []) ++
    [("run_period", Json.arr (jsonList (r.run_period.map Json.str))),
     ("system_details", Json.obj (jsonObj (
        [("global_tag", Json.str r.system_details_global_tag),
         ("release", Json.str r.system_details_release)] ++
        (match r.system_details_container_images with
         | some j => [("container_images", j)]
         | none => [])))),
     ("title", Json.str r.title),
     ("title_additional", Json.str r.title_additional),
     ("type", Json.obj (jsonObj [
        ("primary", Json.str r.type_primary),
        ("secondary", Json.arr (jsonList (r.type_secondary.map Json.str)))])),
     ("usage", Json.obj (jsonObj [
        ("description", Json.str r.usage_description),
        ("links", Json.arr (jsonList (r.usage_links.map
          (fun p => strPairObj "description" p.1 "url" p.2))))])),
     ("validation", Json.obj (jsonObj [
        ("description", Json.str r.validation_description),
        ("links", Json.arr (jsonList (r.validation_links.map
          (fun p => strPairObj "description" p.1 "url" p.2))))]))]))

/-- `print_records(records)` (lines 452-462): the serialized array plus
the newline `print` appends. -/
def print_records (records : List DatasetRecord) : String :=
  pyJsonDumps (Json.arr (jsonList (records.map recToJson))) ++ "\n"

/-- The body of `main()` (lines 465-482) as a function of the inputs
alone: populate every cache in source order, read the target list, build
the records, and serialize them to standard output. -/
def run_pipeline (inputs : Inputs) : Except PyError String := do
  let fwyzard ← populate_fwyzard inputs.hltFile
  let doi_info ← populate_doiinfo inputs.doiFile
  let runnumber_cache ← populate_runnumber_cache inputs.allrunsFile
  let containerimages_cache ← populate_containerimages_cache inputs.containerImagesFile
  let recocmssw_cache ← populate_recocmssw_cache inputs.recoCmsswFile
  let recoglobaltag_cache ← populate_recoglobaltag_cache inputs.recoGlobaltagFile
  let selection_descriptions ← populate_selection_descriptions inputs.selectionDescFile
  match inputs.datasetListFile with
  | none => .error .fileNotFoundError
  | some lines =>
    let dataset_full_names := lines.map pyStrip
    let ctx : Ctx := {
      fwyzard := fwyzard,
      selection_descriptions := selection_descriptions,
      link_info := inputs.linkInfo,
      doi_info := doi_info,
      runnumber_cache := runnumber_cache,
      containerimages_cache := containerimages_cache,
      recocmssw_cache := recocmssw_cache,
      recoglobaltag_cache := recoglobaltag_cache,
      dasStore := inputs.dasStore,
      eosDir := inputs.eosDir,
      xrootdUriBase := inputs.xrootdUriBase,
      indexFileBase := inputs.indexFileBase,
      datasetLocation := inputs.datasetLocation }
    let records ← create_records ctx dataset_full_names
    return print_records records

/-- `main()` (lines 465-482): a function of the external inputs only —
the ambient process state in `Env` is never consulted.  (Named
`main_entry` because Lean reserves `main` for an `IO` entry point.) -/
def main_entry (env : Env) : Except PyError String := run_pipeline env.inputs

/-- A context whose DAS store directory is empty (every per-dataset file
is absent) and whose caches are all empty. -/
def emptyCtx : Ctx := {
  fwyzard := [], selection_descriptions := [], link_info := [], doi_info := [],
  runnumber_cache := [], containerimages_cache := [], recocmssw_cache := [],
  recoglobaltag_cache := [], dasStore := fun _ => none, eosDir := [],
  xrootdUriBase := "", indexFileBase := fun _ => "", datasetLocation := fun _ => "" }

/-- A context in which record creation succeeds for the two datasets of
the DOI table: every DAS document exists (and is empty), and all other
sources are empty. -/
def happyCtx : Ctx := { emptyCtx with
  dasStore := fun _ => some (Json.obj .nil),
  doi_info := [("/A/Run2015E-v1/AOD", "10.7483/OPENDATA.CMS.A"),
               ("/B/Run2015E-v1/AOD", "10.7483/OPENDATA.CMS.B")] }

/-- C3 counterexample: for a dataset absent from the DAS store (its
per-dataset file does not exist), the three numeric getters do not return
0 — they propagate `FileNotFoundError` from the unguarded `open` in
`get_das_store_json`. -/
theorem c3_numeric_absent_counterexample :
    get_number_events emptyCtx "/A/Run2015E-v1/AOD" = Except.error PyError.fileNotFoundError ∧
    get_number_files emptyCtx "/A/Run2015E-v1/AOD" = Except.error PyError.fileNotFoundError ∧
    get_size emptyCtx "/A/Run2015E-v1/AOD" = Except.error PyError.fileNotFoundError ∧
    (Except.error PyError.fileNotFoundError : Except PyError Json) ≠ Except.ok (Json.num 0) :=
  ⟨rfl, rfl, rfl, fun h => Except.noConfusion h⟩

/-- C3 (amended): when the dataset's DAS document exists but holds no
value for the respective key (in particular when it is empty),
`get_number_events`, `get_number_files` and `get_size` each return 0 and
raise no error; only a missing per-dataset document raises
(`FileNotFoundError`). -/
theorem c3_numeric_defaults_amended (ctx : Ctx) (d : String) (j : Json)
    (hdoc : ctx.dasStore (das_store_path d) = some j)
    (hne : valuesForKey j "nevents" = [])
    (hnf : valuesForKey j "nfiles" = [])
    (hsz : valuesForKey j "size" = []) :
    get_number_events ctx d = Except.ok (Json.num 0) ∧
    get_number_files ctx d = Except.ok (Json.num 0) ∧
    get_size ctx d = Except.ok (Json.num 0) := by
  have h1 : get_from_deep_json j "nevents" = Json.null := (deepSearchOk j "nevents").1 hne
  have h2 : get_from_deep_json j "nfiles" = Json.null := (deepSearchOk j "nfiles").1 hnf
  have h3 : get_from_deep_json j "size" = Json.null := (deepSearchOk j "size").1 hsz
  refine ⟨?_, ?_, ?_⟩ <;>
    simp [get_number_events, get_number_files, get_size, get_das_store_json, hdoc,
      h1, h2, h3, Json.truthy, bind, Except.bind, pure, Except.pure]

/-- Witness for C3 (amended): a dataset whose DAS document is the empty
mapping yields 0 for all three metrics. -/
theorem c3_numeric_defaults_amended_witness :
    get_number_events happyCtx "/A/Run2015E-v1/AOD" = Except.ok (Json.num 0) ∧
    get_number_files happyCtx "/A/Run2015E-v1/AOD" = Except.ok (Json.num 0) ∧
    get_size happyCtx "/A/Run2015E-v1/AOD" = Except.ok (Json.num 0) :=
  c3_numeric_defaults_amended happyCtx "/A/Run2015E-v1/AOD" (Json.obj .nil) rfl rfl rfl rfl

/-- C4: on a pattern mismatch the source's error branch evaluates
`f"[ERROR] Cannot parse dataset {dataset}."` — but no name `dataset` is
bound anywhere in the module (the parameter is `dataset_full_name`), so a
`NameError` is raised while building the message: the process still
terminates and no record is emitted for any dataset (second conjunct:
a good identifier followed by a bad one yields no records at all), but
the promised diagnostic naming the dataset is never printed. -/
theorem c4_parse_failure_code_bug :
    create_record emptyCtx recid_freerange_start "badname" =
      Except.error (PyError.nameError "dataset") ∧
    create_records happyCtx ["/A/Run2015E-v1/AOD", "badname"] =
      Except.error (PyError.nameError "dataset") :=
  ⟨rfl, rfl⟩

/-- C8: `get_doi` raises `KeyError` exactly when the dataset is not a key
of the DOI table, and otherwise returns the mapped DOI. -/
theorem c8_get_doi_strict (ctx : Ctx) (d : String) :
    (get_doi ctx d = Except.error (PyError.keyError d) ↔ dictLookup ctx.doi_info d = none) ∧
    (∀ v, dictLookup ctx.doi_info d = some v → get_doi ctx d = Except.ok v) := by
  unfold get_doi
  cases h : dictLookup ctx.doi_info d <;> simp [h]

/-- Witness for C8: a dataset present in the DOI table gets its DOI. -/
theorem c8_get_doi_strict_witness :
    get_doi happyCtx "/A/Run2015E-v1/AOD" = Except.ok "10.7483/OPENDATA.CMS.A" :=
  (c8_get_doi_strict happyCtx "/A/Run2015E-v1/AOD").2 "10.7483/OPENDATA.CMS.A" rfl

/-- C9: the pipeline's output is a function of the external inputs alone;
two runs over identical inputs produce byte-identical serialized output,
whatever the ambient process state (clock, RNG seed) is. -/
theorem c9_byte_identical_output (e1 e2 : Env) (h : e1.inputs = e2.inputs) :
    main_entry e1 = main_entry e2 := by
  unfold main_entry
  rw [h]

/-- Concrete inputs for the C9 witness. -/
def c9Inputs : Inputs := {
  hltFile := none, doiFile := some [], allrunsFile := some [],
  containerImagesFile := some [], recoCmsswFile := some [],
  recoGlobaltagFile := some [], selectionDescFile := none, linkInfo := [],
  dasStore := fun _ => none, eosDir := [], datasetListFile := some [],
  xrootdUriBase := "", indexFileBase := fun _ => "", datasetLocation := fun _ => "" }

/-- Witness for C9: two environments sharing the inputs but differing in
clock and RNG seed produce the same output. -/
theorem c9_byte_identical_output_witness :
    main_entry { inputs := c9Inputs, systemTime := 0, randomSeed := 0 } =
    main_entry { inputs := c9Inputs, systemTime := 999999999, randomSeed := 424242 } :=
  c9_byte_identical_output _ _ rfl

theorem dictLookup_insert_ne {α : Type} (c : List (String × α)) (k K : String) (v : α)
    (h : k ≠ K) : dictLookup (dictInsert c k v) K = dictLookup c K := by
  induction c with
  | nil => simp [dictInsert, dictLookup, h]
  | cons p rest ih =>
    obtain ⟨k', v'⟩ := p
    by_cases hp : k' = k
    · subst hp
      simp [dictInsert, dictLookup, h]
    · simp [dictInsert, dictLookup, hp, ih]

/-- A block of value lines (no header among them) only accumulates into
the pending block: the committed cache is unchanged. -/
theorem runnumber_aux_values :
    ∀ (vs : List String), (∀ v ∈ vs, strStartsWith (pyStrip v) "/" = false) →
    ∀ cache d values, populate_runnumber_cache_aux cache d values vs = cache := by
  intro vs
  induction vs with
  | nil => intro _ cache d values; rfl
  | cons v rest ih =>
    intro hvs cache d values
    have hv : strStartsWith (pyStrip v) "/" = false := hvs v (by simp)
    rw [populate_runnumber_cache_aux]
    simp only [hv, Bool.false_eq_true, if_false]
    exact ih (fun x hx => hvs x (by simp [hx])) cache d (values ++ [pyStrip v])

/-- Dropping the value lines after the last header does not change the
computed cache: the final block is never committed. -/
theorem runnumber_aux_split (hdr : String) (vs : List String)
    (hh : strStartsWith (pyStrip hdr) "/" = true)
    (hvs : ∀ v ∈ vs, strStartsWith (pyStrip v) "/" = false) :
    ∀ (pre : List String) cache d values,
      populate_runnumber_cache_aux cache d values (pre ++ hdr :: vs) =
      populate_runnumber_cache_aux cache d values (pre ++ [hdr]) := by
  intro pre
  induction pre with
  | nil =>
    intro cache d values
    simp only [List.nil_append]
    rw [populate_runnumber_cache_aux, populate_runnumber_cache_aux]
    simp only [hh, if_true]
    rw [runnumber_aux_values vs hvs]
    rfl
  | cons l pre' ih =>
    intro cache d values
    simp only [List.cons_append]
    rw [populate_runnumber_cache_aux, populate_runnumber_cache_aux]
    cases hl : strStartsWith (pyStrip l) "/" <;> simp only [hl, if_true, Bool.false_eq_true, if_false] <;>
      exact ih ..

/-- A dataset name that is not the pending name, not in the cache, and
not among the remaining lines other than the trailing header itself,
stays absent: the trailing header only commits the block before it. -/
theorem runnumber_aux_absent (hdr : String) (hh : strStartsWith (pyStrip hdr) "/" = true) :
    ∀ (ls : List String) (cache : List (String × List String)) (d : String)
      (values : List String),
      dictContains cache (pyStrip hdr) = false → d ≠ pyStrip hdr →
      (∀ l ∈ ls, pyStrip l ≠ pyStrip hdr) →
      dictContains (populate_runnumber_cache_aux cache d values (ls ++ [hdr]))
        (pyStrip hdr) = false := by
  intro ls
  induction ls with
  | nil =>
    intro cache d values hcache hd _
    simp only [List.nil_append]
    rw [populate_runnumber_cache_aux]
    simp only [hh, if_true]
    rw [populate_runnumber_cache_aux]
    by_cases h1 : dictContains cache d = true
    · simp [h1, hcache]
    · simp only [h1, if_false]
      by_cases h2 : values.isEmpty
      · simp [h2, hcache]
      · simp only [h2, Bool.false_eq_true, if_false]
        simp [dictContains, dictLookup_insert_ne cache d (pyStrip hdr) (pySort values) hd]
        simpa [dictContains] using hcache
  | cons l ls' ih =>
    intro cache d values hcache hd hls
    have hl : pyStrip l ≠ pyStrip hdr := hls l (by simp)
    have hls' : ∀ x ∈ ls', pyStrip x ≠ pyStrip hdr := fun x hx => hls x (by simp [hx])
    simp only [List.cons_append]
    rw [populate_runnumber_cache_aux]
    cases hsl : strStartsWith (pyStrip l) "/" with
    | false =>
      simp only [Bool.false_eq_true, if_false]
      exact ih cache d (values ++ [pyStrip l]) hcache hd hls'
    | true =>
      simp only [if_true]
      by_cases h1 : dictContains cache d = true
      · simp only [h1, if_true]
        exact ih cache (pyStrip l) [] hcache hl hls'
      · simp only [h1, if_false]
        by_cases h2 : values.isEmpty
        · simp only [h2, if_true]
          exact ih cache (pyStrip l) [] hcache hl hls'
        · simp only [h2, Bool.false_eq_true, if_false]
          refine ih _ (pyStrip l) [] ?_ hl hls'
          simp [dictContains, dictLookup_insert_ne cache d (pyStrip hdr) (pySort values) hd]
          simpa [dictContains] using hcache

/-- C10 counterexample: in the file `["/d", "1", "/d", "2"]` the final
header `"/d"` is followed by the value line `"2"`, yet `"/d"` is present
in the populated cache (from its earlier, terminated block with value
`"1"`): the stated absence of the final dataset fails when its header
also occurred earlier. -/
theorem c10_final_block_counterexample :
    populate_runnumber_cache (some ["/d", "1", "/d", "2"]) =
      Except.ok [("/d", ["1"])] ∧
    dictContains [("/d", (["1"] : List String))] "/d" = true :=
  ⟨rfl, rfl⟩

/-- C10 (amended): the block after the last header is never committed —
the populated cache is exactly the cache of the same file with those
trailing value lines removed — and the final header's dataset is absent
from the cache unless that dataset also occurs as an earlier (terminated)
header line. -/
theorem c10_final_block_amended (hdr : String) (vs pre : List String)
    (hh : strStartsWith (pyStrip hdr) "/" = true)
    (hvs : ∀ v ∈ vs, strStartsWith (pyStrip v) "/" = false) :
    populate_runnumber_cache (some (pre ++ hdr :: vs)) =
      populate_runnumber_cache (some (pre ++ [hdr])) ∧
    ((∀ l ∈ pre, pyStrip l ≠ pyStrip hdr) →
      dictContains (populate_runnumber_cache_aux [] "" [] (pre ++ hdr :: vs))
        (pyStrip hdr) = false) := by
  constructor
  · show Except.ok (populate_runnumber_cache_aux [] "" [] (pre ++ hdr :: vs)) = _
    rw [runnumber_aux_split hdr vs hh hvs pre]
    rfl
  · intro hpre
    rw [runnumber_aux_split hdr vs hh hvs pre]
    have hne : ("" : String) ≠ pyStrip hdr := by
      intro he
      rw [← he] at hh
      simp [strStartsWith, List.isPrefixOf] at hh
    exact runnumber_aux_absent hdr hh pre [] "" [] rfl hne hpre

/-- Witness for C10 (amended): a two-block file whose final header is
fresh — the trailing value line is dropped and the final dataset is
absent. -/
theorem c10_final_block_amended_witness :
    populate_runnumber_cache (some ["/a", "10", "/d", "2"]) =
      populate_runnumber_cache (some ["/a", "10", "/d"]) ∧
    dictContains (populate_runnumber_cache_aux [] "" [] ["/a", "10", "/d", "2"])
      (pyStrip "/d") = false := by
  have h := c10_final_block_amended "/d" ["2"] ["/a", "10"] (by decide) (by decide)
  exact ⟨h.1, h.2 (by decide)⟩

theorem isPrefixOf_append_self (l t : List Char) : l.isPrefixOf (l ++ t) = true := by
  induction l with
  | nil => simp [List.isPrefixOf]
  | cons c l' ih => simp [List.isPrefixOf, ih]

/-- The replacement scanner passes over text that cannot start a match
(here: non-digit characters, while the pattern starts with a digit). -/
theorem pyReplaceAux_no_match (pat repl : List Char) (p0 : Char) (hp : pat.head? = some p0)
    (hp0 : p0.isDigit = true) :
    ∀ (a t : List Char), (∀ c ∈ a, c.isDigit = false) →
      pyReplaceAux pat repl 0 (a ++ t) = a ++ pyReplaceAux pat repl 0 t := by
  intro a
  induction a with
  | nil => intro t _; simp
  | cons c a' ih =>
    intro t ha
    have hc : c.isDigit = false := ha c (by simp)
    have hpre : pat.isPrefixOf (c :: (a' ++ t)) = false := by
      cases pat with
      | nil => simp at hp
      | cons p ps =>
        have hpp : p = p0 := by simpa using hp
        subst hpp
        have hne : (p == c) = false := by
          cases hbe : p == c
          · rfl
          · have hpc : p = c := beq_iff_eq.mp hbe
            rw [hpc] at hp0
            rw [hp0] at hc
            exact absurd hc (by simp)
        simp [List.isPrefixOf, hne]
    rw [List.cons_append, pyReplaceAux]
    simp only [hpre, Bool.false_eq_true, if_false]
    rw [ih t (fun x hx => ha x (by simp [hx]))]
    rfl

/-- The countdown after a hit skips exactly the rest of the matched text. -/
theorem pyReplaceAux_skip (pat repl : List Char) :
    ∀ (xs t : List Char), pyReplaceAux pat repl xs.length (xs ++ t) =
      pyReplaceAux pat repl 0 t := by
  intro xs
  induction xs with
  | nil => intro t; simp
  | cons x xs' ih =>
    intro t
    simp only [List.cons_append, List.length_cons]
    rw [pyReplaceAux]
    exact ih t

/-- C5: for every successfully parsed dataset identifier whose run-period
token embeds its 4-digit numeric year at the fixed position (3 leading
non-digit characters, then 4 digits, then a digit-free remainder),
`dataset_runperiod_year` — the fixed-position extraction
`dataset_runperiod[3:7]` — recovers exactly that year, and
`dataset_runperiod_runx` equals the run-period token with that year
substring removed. -/
theorem c5_runperiod_year_runx (s : String) (g1 g2 g3 g4 : List Char)
    (_hm : re_match_dataset s.data = some (g1, g2, g3, g4))
    (a y b : List Char) (hsplit : g2 = a ++ y ++ b)
    (ha : a.length = 3) (hy : y.length = 4)
    (hyd : ∀ c ∈ y, c.isDigit = true)
    (had : ∀ c ∈ a, c.isDigit = false)
    (hbd : ∀ c ∈ b, c.isDigit = false) :
    runperiod_year ⟨g2⟩ = ⟨y⟩ ∧ runperiod_runx ⟨g2⟩ = ⟨a ++ b⟩ := by
  have hyear : runperiod_year ⟨g2⟩ = ⟨y⟩ := by
    unfold runperiod_year pySlice
    apply congrArg String.mk
    show ((String.mk g2).data.drop 3).take 4 = y
    rw [show (String.mk g2).data = g2 from rfl, hsplit, List.append_assoc]
    have hdrop : (a ++ (y ++ b)).drop 3 = y ++ b := by
      rw [← ha]
      exact List.drop_left a (y ++ b)
    rw [hdrop, ← hy]
    exact List.take_left y b
  refine ⟨hyear, ?_⟩
  unfold runperiod_runx
  rw [hyear]
  unfold pyReplaceStr pyReplace
  have hyne : y.isEmpty = false := by
    cases y with
    | nil => simp at hy
    | cons c t => rfl
  simp only [show (String.mk g2).data = g2 from rfl, show (String.mk y).data = y from rfl,
    show ("" : String).data = [] from rfl, hyne, Bool.false_eq_true, if_false]
  apply congrArg String.mk
  obtain ⟨y0, y', rfl⟩ : ∃ y0 y', y = y0 :: y' := by
    cases y with
    | nil => simp at hy
    | cons c t => exact ⟨c, t, rfl⟩
  have hy0 : y0.isDigit = true := hyd y0 (by simp)
  rw [hsplit, List.append_assoc]
  rw [pyReplaceAux_no_match (y0 :: y') [] y0 rfl hy0 a ((y0 :: y') ++ b) had]
  have hip : (y0 :: y').isPrefixOf (y0 :: (y' ++ b)) = true := by
    have hps := isPrefixOf_append_self (y0 :: y') b
    rw [List.cons_append] at hps
    exact hps
  have hstep : pyReplaceAux (y0 :: y') [] 0 ((y0 :: y') ++ b) =
      pyReplaceAux (y0 :: y') [] 0 b := by
    rw [List.cons_append, pyReplaceAux]
    simp only [hip, if_true, List.nil_append, List.length_cons, Nat.add_sub_cancel]
    exact pyReplaceAux_skip (y0 :: y') [] y' b
  rw [hstep]
  have hb : pyReplaceAux (y0 :: y') [] 0 b = b := by
    have hnm := pyReplaceAux_no_match (y0 :: y') [] y0 rfl hy0 b [] hbd
    simpa [pyReplaceAux] using hnm
  rw [hb]

/-- Witness for C5 at `"/ZeroBias/Run2015E-PromptReco-v1/AOD"`: the
run-period token `Run2015E` yields year `2015` and run descriptor
`RunE`. -/
theorem c5_runperiod_year_runx_witness :
    runperiod_year ⟨"Run2015E".data⟩ = ⟨"2015".data⟩ ∧
    runperiod_runx ⟨"Run2015E".data⟩ = ⟨"Run".data ++ "E".data⟩ :=
  c5_runperiod_year_runx "/ZeroBias/Run2015E-PromptReco-v1/AOD"
    "ZeroBias".data "Run2015E".data "PromptReco-v1".data "AOD".data rfl
    "Run".data "2015".data "E".data (by decide) (by decide) (by decide)
    (by decide) (by decide) (by decide)

/-- Every successfully built record carries `recid = str(recid)` for the
id it was built with. -/
theorem create_record_recid (ctx : Ctx) (k : Nat) (name : String) (r : DatasetRecord)
    (h : create_record ctx k name = .ok r) : r.recid = toString k := by
  unfold create_record at h
  split at h
  · exact Except.noConfusion h
  · simp only [bind, Except.bind, pure, Except.pure] at h
    split at h
    · exact Except.noConfusion h
    · split at h
      · exact Except.noConfusion h
      · split at h
        · exact Except.noConfusion h
        · split at h
          · exact Except.noConfusion h
          · split at h
            · exact Except.noConfusion h
            · have hr := Except.ok.inj h
              rw [← hr]

theorem create_records_aux_spec (ctx : Ctx) :
    ∀ (names : List String) (k : Nat) (recs : List DatasetRecord),
      create_records_aux ctx k names = .ok recs →
      recs.length = names.length ∧
      ∀ i (hi : i < recs.length), (recs.get ⟨i, hi⟩).recid = toString (k + i) := by
  intro names
  induction names with
  | nil =>
    intro k recs h
    have hrecs : [] = recs := Except.ok.inj h
    subst hrecs
    exact ⟨rfl, fun i hi => absurd hi (by simp)⟩
  | cons name rest ih =>
    intro k recs h
    rw [create_records_aux] at h
    simp only [bind, Except.bind, pure, Except.pure] at h
    split at h
    · exact Except.noConfusion h
    · rename_i r hr
      split at h
      · exact Except.noConfusion h
      · rename_i rs hrs
        have hrecs : r :: rs = recs := Except.ok.inj h
        subst hrecs
        obtain ⟨hlen, hids⟩ := ih (k + 1) rs hrs
        refine ⟨by simp [hlen], ?_⟩
        intro i hi
        cases i with
        | zero => simpa using create_record_recid ctx k name r hr
        | succ i' =>
          have hi' : i' < rs.length := by simpa using hi
          have hid := hids i' hi'
          have harith : k + 1 + i' = k + (i' + 1) := by omega
          simpa [harith] using hid

/-- C7: whenever `create_records` succeeds, it produces exactly one
record per identifier, in input order, the i-th record (from 0) carrying
`recid = str(24600 + i)`. -/
theorem c7_sequential_recids (ctx : Ctx) (names : List String) (recs : List DatasetRecord)
    (h : create_records ctx names = Except.ok recs) :
    recs.length = names.length ∧
    ∀ i (hi : i < recs.length),
      (recs.get ⟨i, hi⟩).recid = toString (recid_freerange_start + i) :=
  create_records_aux_spec ctx names recid_freerange_start recs h

/-- Witness for C7: a concrete two-dataset run succeeds and yields record
ids "24600", "24601". -/
theorem c7_sequential_recids_witness :
    ∃ recs : List DatasetRecord,
      create_records happyCtx ["/A/Run2015E-v1/AOD", "/B/Run2015E-v1/AOD"] =
        Except.ok recs ∧
      recs.length = 2 ∧
      recs.map (fun r => r.recid) = ["24600", "24601"] := by
  obtain ⟨recs, hr⟩ : ∃ recs,
      create_records happyCtx ["/A/Run2015E-v1/AOD", "/B/Run2015E-v1/AOD"] =
        Except.ok recs := ⟨_, rfl⟩
  obtain ⟨hlen, hids⟩ := c7_sequential_recids happyCtx _ recs hr
  refine ⟨recs, hr, by simpa using hlen, ?_⟩
  cases recs with
  | nil => simp at hlen
  | cons r1 t =>
    cases t with
    | nil => simp at hlen
    | cons r2 t2 =>
      cases t2 with
      | cons r3 t3 => simp at hlen
      | nil =>
        have h0 := hids 0 (by simp)
        have h1 := hids 1 (by simp)
        simp only [List.get] at h0 h1
        simp only [List.map, h0, h1]
        rfl

def lowercaseHexChars : List Char := "0123456789abcdef".data

theorem digitChar_mem_hex : ∀ m : Nat, m < 16 → Nat.digitChar m ∈ lowercaseHexChars := by
  decide

theorem adler32_lt_aux :
    ∀ (l : List Nat) (ab : Nat × Nat), ab.1 < 65521 → ab.2 < 65521 →
      (l.foldl (fun (ab : Nat × Nat) b =>
        ((ab.1 + b) % 65521, (ab.2 + (ab.1 + b) % 65521) % 65521)) ab).1 < 65521 ∧
      (l.foldl (fun (ab : Nat × Nat) b =>
        ((ab.1 + b) % 65521, (ab.2 + (ab.1 + b) % 65521) % 65521)) ab).2 < 65521 := by
  intro l
  induction l with
  | nil => intro ab h1 h2; exact ⟨h1, h2⟩
  | cons x rest ih =>
    intro ab _ _
    exact ih _ (Nat.mod_lt _ (by norm_num)) (Nat.mod_lt _ (by norm_num))

/-- The combined Adler-32 value fits in 32 bits (so the source's
`& 0xFFFFFFFF` is a no-op and the hex digest has at most 8 digits). -/
theorem adler32_lt (content : List Nat) : adler32 content < 4294967296 := by
  unfold adler32
  dsimp only
  obtain ⟨ha, hb⟩ := adler32_lt_aux content (1, 0) (by norm_num) (by norm_num)
  omega

theorem toDigits_adler_le (content : List Nat) :
    (Nat.toDigits 16 (adler32 content)).length ≤ 8 := by
  unfold Nat.toDigits
  exact Nat.toDigitsCore_length 16 (by norm_num) (adler32 content + 1) (adler32 content) 8
    (by simpa using adler32_lt content) (by norm_num)

theorem toDigitsCore_mem (f : Nat) :
    ∀ (n : Nat) (l : List Char) (c : Char), c ∈ Nat.toDigitsCore 16 f n l →
      c ∈ l ∨ c ∈ lowercaseHexChars := by
  induction f with
  | zero =>
    intro n l c hc
    exact .inl (by simpa [Nat.toDigitsCore] using hc)
  | succ f ih =>
    intro n l c hc
    rw [Nat.toDigitsCore] at hc
    by_cases hd : n / 16 = 0
    · simp only [hd, if_true] at hc
      rcases List.mem_cons.mp hc with hc | hc
      · exact .inr (hc ▸ digitChar_mem_hex (n % 16) (Nat.mod_lt n (by norm_num)))
      · exact .inl hc
    · simp only [hd, if_false] at hc
      rcases ih (n / 16) (Nat.digitChar (n % 16) :: l) c hc with hc' | hc'
      · rcases List.mem_cons.mp hc' with hc'' | hc''
        · exact .inr (hc'' ▸ digitChar_mem_hex (n % 16) (Nat.mod_lt n (by norm_num)))
        · exact .inl hc''
      · exact .inr hc'

/-- The checksum digest is exactly 8 lowercase hexadecimal characters. -/
theorem get_file_checksum_hex (content : List Nat) :
    (get_file_checksum content).data.length = 8 ∧
    ∀ c ∈ (get_file_checksum content).data, c ∈ lowercaseHexChars := by
  have hlen := toDigits_adler_le content
  constructor
  · show (zfill8 (Nat.toDigits 16 (adler32 content))).length = 8
    unfold zfill8
    rw [List.length_append, List.length_replicate]
    omega
  · intro c hc
    have hc' : c ∈ zfill8 (Nat.toDigits 16 (adler32 content)) := hc
    unfold zfill8 at hc'
    rcases List.mem_append.mp hc' with hr | hr
    · have : c = '0' := List.eq_of_mem_replicate hr
      subst this
      decide
    · unfold Nat.toDigits at hr
      rcases toDigitsCore_mem (adler32 content + 1) (adler32 content) [] c hr with h0 | h0
      · exact absurd h0 (List.not_mem_nil c)
      · exact h0

theorem strData_append (a b : String) : (a ++ b).data = a.data ++ b.data := rfl

theorem strEndsWith_append (pre s e : String) (h : strEndsWith s e = true) :
    strEndsWith (pre ++ s) e = true := by
  unfold strEndsWith at h ⊢
  rw [List.isSuffixOf_iff_suffix] at h ⊢
  rw [strData_append]
  exact h.trans (List.suffix_append pre.data s.data)

theorem strEndsWith_last {s e : String} (h : strEndsWith s e = true) (he : e.data ≠ []) :
    s.data.getLast? = e.data.getLast? := by
  obtain ⟨t, ht⟩ := List.isSuffixOf_iff_suffix.mp h
  rw [← ht]
  exact List.getLast?_append_of_ne_nil t he

/-- Two candidate extensions with different last characters cannot both
be suffixes: ending in one rules out the other. -/
theorem strEnds_conflict {s e1 e2 : String} (h1 : strEndsWith s e1 = true)
    (hne : e1.data.getLast? ≠ e2.data.getLast?) (he1 : e1.data ≠ []) (he2 : e2.data ≠ []) :
    strEndsWith s e2 = false := by
  cases hb : strEndsWith s e2
  · rfl
  · exact absurd ((strEndsWith_last h1 he1).symm.trans (strEndsWith_last hb he2)) hne

/-- Partitioning the index-file triples by ".json": the source's
uri-based filter over the built triples equals a name-based filter over
the directory listing, mapped to triples. -/
theorem c6_core_json (base uriPre : String) :
    ∀ listing : List (String × List Nat),
    ((listing.filter (fun f => strContainsSub f.1 base)).filterMap (fun f =>
        if strEndsWith (pyStrip f.1) ".txt" || strEndsWith (pyStrip f.1) ".json" then
          some (uriPre ++ pyStrip f.1, get_file_size f.2, get_file_checksum f.2)
        else none)).filter (fun t => strEndsWith t.1 ".json")
    = (listing.filter (fun f => strContainsSub f.1 base &&
          strEndsWith (pyStrip f.1) ".json")).map
        (fun f => (uriPre ++ pyStrip f.1, get_file_size f.2, get_file_checksum f.2)) := by
  intro listing
  induction listing with
  | nil => rfl
  | cons f rest ih =>
    by_cases hc : strContainsSub f.1 base
    · by_cases hj : strEndsWith (pyStrip f.1) ".json"
      · have hu : strEndsWith (uriPre ++ pyStrip f.1) ".json" = true :=
          strEndsWith_append uriPre (pyStrip f.1) ".json" hj
        simp [List.filter_cons, List.filterMap_cons, hc, hj, hu]
        simpa using ih
      · by_cases ht : strEndsWith (pyStrip f.1) ".txt"
        · have hu : strEndsWith (uriPre ++ pyStrip f.1) ".json" = false :=
            strEnds_conflict (strEndsWith_append uriPre (pyStrip f.1) ".txt" ht)
              (by decide) (by decide) (by decide)
          simp [List.filter_cons, List.filterMap_cons, hc, hj, ht, hu]
          simpa using ih
        · simp [List.filter_cons, List.filterMap_cons, hc, hj, ht]
          simpa using ih
    · simp [List.filter_cons, hc]
      simpa using ih

/-- Partitioning the index-file triples by ".txt". -/
theorem c6_core_txt (base uriPre : String) :
    ∀ listing : List (String × List Nat),
    ((listing.filter (fun f => strContainsSub f.1 base)).filterMap (fun f =>
        if strEndsWith (pyStrip f.1) ".txt" || strEndsWith (pyStrip f.1) ".json" then
          some (uriPre ++ pyStrip f.1, get_file_size f.2, get_file_checksum f.2)
        else none)).filter (fun t => strEndsWith t.1 ".txt")
    = (listing.filter (fun f => strContainsSub f.1 base &&
          strEndsWith (pyStrip f.1) ".txt")).map
        (fun f => (uriPre ++ pyStrip f.1, get_file_size f.2, get_file_checksum f.2)) := by
  intro listing
  induction listing with
  | nil => rfl
  | cons f rest ih =>
    by_cases hc : strContainsSub f.1 base
    · by_cases ht : strEndsWith (pyStrip f.1) ".txt"
      · have hu : strEndsWith (uriPre ++ pyStrip f.1) ".txt" = true :=
          strEndsWith_append uriPre (pyStrip f.1) ".txt" ht
        simp [List.filter_cons, List.filterMap_cons, hc, ht, hu]
        simpa using ih
      · by_cases hj : strEndsWith (pyStrip f.1) ".json"
        · have hu : strEndsWith (uriPre ++ pyStrip f.1) ".txt" = false :=
            strEnds_conflict (strEndsWith_append uriPre (pyStrip f.1) ".json" hj)
              (by decide) (by decide) (by decide)
          simp [List.filter_cons, List.filterMap_cons, hc, hj, ht, hu]
          simpa using ih
        · simp [List.filter_cons, List.filterMap_cons, hc, hj, ht]
          simpa using ih
    · simp [List.filter_cons, hc]
      simpa using ih

/-- The directory-listing files matching the dataset's index-file base
(the `grep`) whose (stripped) name carries the given extension. -/
def matching_index_files (ctx : Ctx) (d ext : String) : List (String × List Nat) :=
  ctx.eosDir.filter (fun f => strContainsSub f.1 (ctx.indexFileBase d) &&
    strEndsWith (pyStrip f.1) ext)

/-- The file-entry the record holds for the n-th matching file (1-based)
of one extension group of size `total`. -/
def index_entry (ctx : Ctx) (d short fmt ext : String) (n total : Nat)
    (f : String × List Nat) : FileEntry :=
  { checksum := "adler32:" ++ get_file_checksum f.2,
    description := short ++ " " ++ fmt ++ " file index (" ++ toString n ++ " of " ++
      toString total ++ ") for access to data",
    size := get_file_size f.2,
    type := "index" ++ ext,
    uri := ctx.xrootdUriBase ++ ctx.datasetLocation d ++ "/file-indexes/" ++ pyStrip f.1 }

theorem c6_files_json_part (ctx : Ctx) (d short fmt : String) :
    rec_files_for_type short fmt ".json" (get_dataset_index_files ctx d) =
      (matching_index_files ctx d ".json").enum.map (fun p =>
        index_entry ctx d short fmt ".json" (p.1 + 1)
          (matching_index_files ctx d ".json").length p.2) := by
  have hjson : (get_dataset_index_files ctx d).filter (fun t => strEndsWith t.1 ".json") =
      (matching_index_files ctx d ".json").map (fun f =>
        (ctx.xrootdUriBase ++ ctx.datasetLocation d ++ "/file-indexes/" ++ pyStrip f.1,
         get_file_size f.2, get_file_checksum f.2)) :=
    c6_core_json (ctx.indexFileBase d)
      (ctx.xrootdUriBase ++ ctx.datasetLocation d ++ "/file-indexes/") ctx.eosDir
  simp only [rec_files_for_type]
  rw [hjson, List.enum_map, List.map_map, List.length_map]
  apply List.map_congr_left
  intro p _
  obtain ⟨i, f⟩ := p
  rfl

theorem c6_files_txt_part (ctx : Ctx) (d short fmt : String) :
    rec_files_for_type short fmt ".txt" (get_dataset_index_files ctx d) =
      (matching_index_files ctx d ".txt").enum.map (fun p =>
        index_entry ctx d short fmt ".txt" (p.1 + 1)
          (matching_index_files ctx d ".txt").length p.2) := by
  have htxt : (get_dataset_index_files ctx d).filter (fun t => strEndsWith t.1 ".txt") =
      (matching_index_files ctx d ".txt").map (fun f =>
        (ctx.xrootdUriBase ++ ctx.datasetLocation d ++ "/file-indexes/" ++ pyStrip f.1,
         get_file_size f.2, get_file_checksum f.2)) :=
    c6_core_txt (ctx.indexFileBase d)
      (ctx.xrootdUriBase ++ ctx.datasetLocation d ++ "/file-indexes/") ctx.eosDir
  simp only [rec_files_for_type]
  rw [htxt, List.enum_map, List.map_map, List.length_map]
  apply List.map_congr_left
  intro p _
  obtain ⟨i, f⟩ := p
  rfl

/-- C6: over a directory listing with N matching ".json" files and M
matching ".txt" files, the record's `files` array holds exactly N + M
entries, all ".json" entries before all ".txt" entries, the k-th entry of
each group (in listing order) numbered k "of" its own group size
independently, and each entry's checksum equal to "adler32:" followed by
exactly 8 lowercase hexadecimal characters — the Adler-32 digest of that
file's content. -/
theorem c6_index_files (ctx : Ctx) (d short fmt : String) :
    (build_rec_files short fmt (get_dataset_index_files ctx d)).length =
      (matching_index_files ctx d ".json").length +
      (matching_index_files ctx d ".txt").length ∧
    build_rec_files short fmt (get_dataset_index_files ctx d) =
      (matching_index_files ctx d ".json").enum.map (fun p =>
        index_entry ctx d short fmt ".json" (p.1 + 1)
          (matching_index_files ctx d ".json").length p.2) ++
      (matching_index_files ctx d ".txt").enum.map (fun p =>
        index_entry ctx d short fmt ".txt" (p.1 + 1)
          (matching_index_files ctx d ".txt").length p.2) ∧
    (∀ e ∈ build_rec_files short fmt (get_dataset_index_files ctx d),
      e.checksum.data.take 8 = "adler32:".data ∧
      (e.checksum.data.drop 8).length = 8 ∧
      ∀ c ∈ e.checksum.data.drop 8, c ∈ lowercaseHexChars) := by
  have heq : build_rec_files short fmt (get_dataset_index_files ctx d) =
      (matching_index_files ctx d ".json").enum.map (fun p =>
        index_entry ctx d short fmt ".json" (p.1 + 1)
          (matching_index_files ctx d ".json").length p.2) ++
      (matching_index_files ctx d ".txt").enum.map (fun p =>
        index_entry ctx d short fmt ".txt" (p.1 + 1)
          (matching_index_files ctx d ".txt").length p.2) := by
    unfold build_rec_files
    rw [c6_files_json_part ctx d short fmt, c6_files_txt_part ctx d short fmt]
  refine ⟨?_, heq, ?_⟩
  · rw [heq]
    simp [List.enum_length]
  · intro e he
    rw [heq] at he
    have hcheck : ∃ content : List Nat,
        e.checksum = "adler32:" ++ get_file_checksum content := by
      rcases List.mem_append.mp he with hm | hm <;>
      · obtain ⟨p, _, hp⟩ := List.mem_map.mp hm
        exact ⟨p.2.2, by rw [← hp]; rfl⟩
    obtain ⟨content, hcs⟩ := hcheck
    have hdata : e.checksum.data = "adler32:".data ++ (get_file_checksum content).data := by
      rw [hcs]; rfl
    obtain ⟨hlen8, hmem⟩ := get_file_checksum_hex content
    refine ⟨?_, ?_, ?_⟩
    · rw [hdata, show (8 : Nat) = "adler32:".data.length from rfl, List.take_left]
    · rw [hdata, show (8 : Nat) = "adler32:".data.length from rfl, List.drop_left]
      exact hlen8
    · rw [hdata, show (8 : Nat) = "adler32:".data.length from rfl, List.drop_left]
      exact hmem

/-- A context whose EOS index directory holds one matching ".json" and
one matching ".txt" file. -/
def eosCtx : Ctx := { emptyCtx with
  eosDir := [("x_file_index.json", [65, 66]), ("x_file_index.txt", [67])],
  indexFileBase := fun _ => "x_",
  xrootdUriBase := "root://x/",
  datasetLocation := fun _ => "loc" }

/-- The first file entry `eosCtx` produces. -/
def c6e0 : FileEntry :=
  { checksum := "adler32:00c60084",
    description := "A AOD file index (1 of 1) for access to data",
    size := 2,
    type := "index.json",
    uri := "root://x/loc/file-indexes/x_file_index.json" }

/-- Witness for C6: over a listing with one ".json" and one ".txt"
matching file, the record holds 2 entries and the first entry's checksum
is "adler32:" followed by 8 lowercase hex characters. -/
theorem c6_index_files_witness :
    (build_rec_files "A" "AOD" (get_dataset_index_files eosCtx "/A/Run2015E-v1/AOD")).length = 2 ∧
    c6e0.checksum.data.take 8 = "adler32:".data ∧
    (c6e0.checksum.data.drop 8).length = 8 ∧
    (∀ c ∈ c6e0.checksum.data.drop 8, c ∈ lowercaseHexChars) := by
  have h := c6_index_files eosCtx "/A/Run2015E-v1/AOD" "A" "AOD"
  have hm : c6e0 ∈ build_rec_files "A" "AOD"
      (get_dataset_index_files eosCtx "/A/Run2015E-v1/AOD") := by decide
  obtain ⟨h1, h2, h3⟩ := h.2.2 c6e0 hm
  exact ⟨by rw [h.1]; rfl, h1, h2, h3⟩
